import Mathlib

/-
Verification of the tiktoken plugin registry (`tiktoken_ai.py`).

The registry discovers encoding constructors contributed by plugin modules,
builds a process-global constructor table once, and lazily constructs and
caches `Encoding` objects by name.

Shallow embedding: the Python module-global mutable state
(`ENCODINGS`, `ENCODING_CONSTRUCTORS`) becomes an explicit `RegState` record
threaded through the operations; Python dicts become insertion-ordered
association lists; exceptions become an explicit `PyErr` error value returned
in an `Except`/`Option`.  The process environment (which plugin modules exist
and what each contributes) is a parameter `Env`.  To make side effects
observable, the state additionally logs every attempted module import
(`importedModules`) and every factory invocation (`factoryCalls`); these logs
correspond to the import side effects and `constructor()` calls of the Python
code and are otherwise inert.
-/

namespace Tiktoken

/-- An `Encoding` object is opaque to the registry; we model it by an identity
(Python object identity). -/
structure Encoding where
  id : Nat
deriving DecidableEq, Repr

/-- Python exceptions surfaced by the registry: `ValueError msg` for the
errors the registry raises itself, `importError msg` for a propagated
`ImportError`, and `other msg` for any other exception (e.g. one raised by a
factory, by `Encoding(**...)`, or by a failed `assert`). -/
inductive PyErr where
  | valueError (msg : String)
  | importError (msg : String)
  | other (msg : String)
deriving DecidableEq, Repr

/-- The outcome of invoking a zero-argument encoding factory and passing its
result to `Encoding(**...)`: either a fully built `Encoding`, or an
exception. -/
inductive FactoryResult where
  | ok (e : Encoding)
  | err (msg : String)
deriving DecidableEq, Repr

/-- What `importlib.import_module` followed by reading
`mod.ENCODING_CONSTRUCTORS` yields for one plugin module: the contributed
`{encoding name : factory}` mapping in registration order, or an
`AttributeError` (module lacks `ENCODING_CONSTRUCTORS`), or an
`ImportError`. -/
inductive ModResult where
  | ok (constructors : List (String × FactoryResult))
  | malformed
  | importError (msg : String)
deriving DecidableEq, Repr

/-- The fixed process environment: the plugin modules found by
`pkgutil.iter_modules`, in enumeration order, each with the outcome of
its import. -/
structure Env where
  plugins : List (String × ModResult)
deriving DecidableEq, Repr

/-- A Python dict, modelled as an insertion-ordered association list. -/
abbrev Dict (α : Type) := List (String × α)

/-- `d[k]` lookup: first (and only) binding of `k`. -/
def dictLookup {α : Type} : Dict α → String → Option α
  | [], _ => none
  | (k', v) :: rest, k => if k' = k then some v else dictLookup rest k

/-- `d[k] = v` assignment: overwrite in place if `k` is bound (Python dicts
keep the original position), otherwise append. -/
def dictInsert {α : Type} : Dict α → String → α → Dict α
  | [], k, v => [(k, v)]
  | (k', v') :: rest, k, v =>
    if k' = k then (k', v) :: rest else (k', v') :: dictInsert rest k v

/-- The constructor table `ENCODING_CONSTRUCTORS`: encoding name to factory. -/
abbrev Table := Dict FactoryResult

/-- The module-global mutable state of `tiktoken_ai.py`, plus the two
side-effect logs described in the header comment. -/
structure RegState where
  ENCODINGS : Dict Encoding
  ENCODING_CONSTRUCTORS : Option Table
  factoryCalls : List String
  importedModules : List String
deriving DecidableEq, Repr

/-- The state at interpreter start: both globals empty/unset. -/
def initState : RegState := ⟨[], none, [], []⟩

/-- `_available_plugin_modules()`: the names of the discoverable plugin
modules, in enumeration order (memoized in Python; pure here). -/
def _available_plugin_modules (env : Env) : List String :=
  env.plugins.map Prod.fst

/-- The inner `for enc_name, constructor in constructors.items()` loop of
`_find_constructors`, for one module: register each contributed factory,
failing on a name already present in the table.  Returns the error (if any)
together with the table as mutated so far — the Python loop mutates the
global dict in place, so on failure the partially extended table remains. -/
def registerCtors (modName : String) :
    List (String × FactoryResult) → Table → Option PyErr × Table
  | [], t => (none, t)
  | (encName, ctor) :: rest, t =>
    if (dictLookup t encName).isSome then
      (some (.valueError ("Duplicate encoding name " ++ encName ++
        " in tiktoken plugin " ++ modName)), t)
    else
      registerCtors modName rest (dictInsert t encName ctor)

/-- The outer `for mod_name in _available_plugin_modules()` loop of
`_find_constructors`: import each module (logged in the import list), read
its `ENCODING_CONSTRUCTORS`, and register its factories.  An
`AttributeError` becomes `ValueError("tiktoken plugin ... does not define
ENCODING_CONSTRUCTORS")`; an `ImportError` is re-raised as is. -/
def findLoop :
    List (String × ModResult) → Table → List String →
    Option PyErr × Table × List String
  | [], t, imps => (none, t, imps)
  | (modName, res) :: rest, t, imps =>
    match res with
    | .importError msg => (some (.importError msg), t, imps ++ [modName])
    | .malformed =>
      (some (.valueError ("tiktoken plugin " ++ modName ++
        " does not define ENCODING_CONSTRUCTORS")), t, imps ++ [modName])
    | .ok ctors =>
      match registerCtors modName ctors t with
      | (some e, t') => (some e, t', imps ++ [modName])
      | (none, t') => findLoop rest t' (imps ++ [modName])

/-- `_find_constructors()`: if the table is already built, do nothing;
otherwise set `ENCODING_CONSTRUCTORS = {}` and run the registration loop.
Faithful to the source: the global is assigned the loop's table even when the
loop raises, so a failed build leaves `ENCODING_CONSTRUCTORS` as the partial
table (it is not reset to `None`). -/
def _find_constructors (env : Env) (s : RegState) : Option PyErr × RegState :=
  match s.ENCODING_CONSTRUCTORS with
  | some _ => (none, s)
  | none =>
    match findLoop env.plugins [] s.importedModules with
    | (e, t, imps) =>
      (e, { s with ENCODING_CONSTRUCTORS := some t, importedModules := imps })

/-- The Python `repr` of the available-plugins list, as interpolated into the
`Unknown encoding` message. -/
def pluginsRepr (mods : List String) : String :=
  "[" ++ String.intercalate ", " (mods.map (fun m => "'" ++ m ++ "'")) ++ "]"

/-- The message of the `Unknown encoding` `ValueError`. -/
def unknownEncodingMessage (encodingName : String) (mods : List String) :
    String :=
  "Unknown encoding " ++ encodingName ++ ". Plugins found: " ++
    pluginsRepr mods

/-- The error raised for an unknown encoding name. -/
def unknownError (env : Env) (name : String) : PyErr :=
  .valueError (unknownEncodingMessage name (_available_plugin_modules env))

/-- `get_encoding(encoding_name)`: fast-path cache lookup, then (under the
lock) re-check, build the constructor table if unset, look up the factory,
invoke it (logged in `factoryCalls`) and build + cache the `Encoding`.
Unknown names raise `ValueError` with the available plugin list; the
`assert ENCODING_CONSTRUCTORS is not None` is modelled as an
`AssertionError`-like failure. -/
def get_encoding (env : Env) (encoding_name : String) (s : RegState) :
    Except PyErr Encoding × RegState :=
  match dictLookup s.ENCODINGS encoding_name with
  | some enc => (.ok enc, s)
  | none =>
    match dictLookup s.ENCODINGS encoding_name with
    | some enc => (.ok enc, s)
    | none =>
      let find :=
        match s.ENCODING_CONSTRUCTORS with
        | some _ => (none, s)
        | none => _find_constructors env s
      match find with
      | (some e, s1) => (.error e, s1)
      | (none, s1) =>
        match s1.ENCODING_CONSTRUCTORS with
        | none => (.error (.other "AssertionError"), s1)
        | some table =>
          match dictLookup table encoding_name with
          | none =>
            (.error (.valueError (unknownEncodingMessage encoding_name
              (_available_plugin_modules env))), s1)
          | some ctor =>
            let s2 := { s1 with
              factoryCalls := s1.factoryCalls ++ [encoding_name] }
            match ctor with
            | .err msg => (.error (.other msg), s2)
            | .ok enc =>
              (.ok enc, { s2 with
                ENCODINGS := dictInsert s2.ENCODINGS encoding_name enc })

/-- `list_encoding_names()`: build the constructor table if unset and return
its keys in insertion order.  No factory is invoked. -/
def list_encoding_names (env : Env) (s : RegState) :
    Except PyErr (List String) × RegState :=
  let find :=
    match s.ENCODING_CONSTRUCTORS with
    | some _ => (none, s)
    | none => _find_constructors env s
  match find with
  | (some e, s1) => (.error e, s1)
  | (none, s1) =>
    match s1.ENCODING_CONSTRUCTORS with
    | none => (.error (.other "AssertionError"), s1)
    | some table => (.ok (table.map Prod.fst), s1)

/-- The names contributed by the well-formed plugin modules of `env`, in
plugin enumeration order, then per-module registration order. -/
def wellFormedNames (env : Env) : List String :=
  env.plugins.flatMap fun p =>
    match p.2 with
    | .ok cs => cs.map Prod.fst
    | _ => []

/-- A concrete environment: one well-formed plugin contributing one
encoding. -/
def envA : Env :=
  ⟨[("tiktoken_ext.openai_public", .ok [("gpt2", .ok ⟨0⟩)])]⟩

/-- The constructor table `envA`'s build produces. -/
def tA : Table := [("gpt2", .ok ⟨0⟩)]

/-- A state in which `envA`'s table is built but nothing is cached yet. -/
def sBuilt : RegState := ⟨[], some tA, [], ["tiktoken_ext.openai_public"]⟩

/-- The state after a first successful `get_encoding "gpt2"` under `envA`. -/
def sA : RegState :=
  ⟨[("gpt2", ⟨0⟩)], some tA, ["gpt2"], ["tiktoken_ext.openai_public"]⟩

/-- A concrete environment whose single plugin contributes a factory that
raises. -/
def envErr : Env :=
  ⟨[("tiktoken_ext.bad_factory", .ok [("boom", .err "boom failed")])]⟩

/-- The constructor table `envErr`'s build produces. -/
def tErr : Table := [("boom", .err "boom failed")]

/-- A state in which `envErr`'s table is built but nothing is cached yet. -/
def sErrBuilt : RegState := ⟨[], some tErr, [], ["tiktoken_ext.bad_factory"]⟩

/-- A concrete environment with two plugins that both register the encoding
name `x`. -/
def envDup : Env :=
  ⟨[("tiktoken_ext.plugin_a", .ok [("x", .ok ⟨0⟩)]),
    ("tiktoken_ext.plugin_b", .ok [("x", .ok ⟨1⟩)])]⟩

/-!
Concurrency model.  `get_encoding(name)` as executed by one thread is split
into its atomic actions on the shared module-global state: the unlocked
fast-path dict read; acquiring the coordination lock; the re-check read; the
table build (one action, since it happens entirely under the held lock and
touches no state an unlocked reader can see); the table lookup plus factory
and builder invocation; and publishing the new object into the cache while
releasing the lock.  The re-entrant lock acquisition inside
`_find_constructors` is a no-op for the holding thread and is absorbed into
the build action.  Each factory/builder invocation yields an object with a
fresh identity (`nextId`), so constructing twice would be observable.
-/

deriving instance DecidableEq for Except

/-- The program counter of one thread running `get_encoding(name)`. -/
inductive TSt where
  | start
  | waiting
  | locked1
  | locked2
  | locked3
  | locked4 (e : Encoding)
  | done (r : Except PyErr Encoding)
deriving DecidableEq, Repr

/-- A configuration of `n` threads all calling `get_encoding(name)`
concurrently, together with the shared module-global state, the lock
(holding thread, if any), and the next fresh object identity. -/
structure CConfig (n : Nat) where
  threads : Fin n → TSt
  ENCODINGS : Dict Encoding
  ENCODING_CONSTRUCTORS : Option Table
  factoryCalls : List String
  importedModules : List String
  lock : Option (Fin n)
  nextId : Nat

/-- Replace thread `i`'s program counter. -/
def updThreads {n : Nat} (ts : Fin n → TSt) (i : Fin n) (v : TSt) :
    Fin n → TSt :=
  fun j => if j = i then v else ts j

/-- The initial configuration: every thread about to make its call, nothing
built, nothing cached, lock free. -/
def initConfig (n : Nat) : CConfig n :=
  ⟨fun _ => .start, [], none, [], [], none, 0⟩

/-- One atomic action of one thread, interleaving-style.  Mirrors
`get_encoding`/`_find_constructors` line by line: fast path without the lock,
double-checked re-read and build under the lock, publish-then-release. -/
inductive CStep {n : Nat} (env : Env) (name : String) :
    CConfig n → CConfig n → Prop where
  | fastHit (c : CConfig n) (i : Fin n) (e : Encoding)
      (hpc : c.threads i = .start)
      (hc : dictLookup c.ENCODINGS name = some e) :
      CStep env name c
        { c with threads := updThreads c.threads i (.done (.ok e)) }
  | fastMiss (c : CConfig n) (i : Fin n)
      (hpc : c.threads i = .start)
      (hc : dictLookup c.ENCODINGS name = none) :
      CStep env name c { c with threads := updThreads c.threads i .waiting }
  | acquire (c : CConfig n) (i : Fin n)
      (hpc : c.threads i = .waiting) (hl : c.lock = none) :
      CStep env name c
        { c with threads := updThreads c.threads i .locked1, lock := some i }
  | recheckHit (c : CConfig n) (i : Fin n) (e : Encoding)
      (hpc : c.threads i = .locked1) (hl : c.lock = some i)
      (hc : dictLookup c.ENCODINGS name = some e) :
      CStep env name c
        { c with threads := updThreads c.threads i (.done (.ok e)),
                 lock := none }
  | recheckMiss (c : CConfig n) (i : Fin n)
      (hpc : c.threads i = .locked1) (hl : c.lock = some i)
      (hc : dictLookup c.ENCODINGS name = none) :
      CStep env name c { c with threads := updThreads c.threads i .locked2 }
  | ensureSkip (c : CConfig n) (i : Fin n) (t0 : Table)
      (hpc : c.threads i = .locked2) (hl : c.lock = some i)
      (hk : c.ENCODING_CONSTRUCTORS = some t0) :
      CStep env name c { c with threads := updThreads c.threads i .locked3 }
  | ensureBuildOk (c : CConfig n) (i : Fin n) (t0 : Table)
      (imps : List String)
      (hpc : c.threads i = .locked2) (hl : c.lock = some i)
      (hk : c.ENCODING_CONSTRUCTORS = none)
      (hf : findLoop env.plugins [] c.importedModules = (none, t0, imps)) :
      CStep env name c
        { c with threads := updThreads c.threads i .locked3,
                 ENCODING_CONSTRUCTORS := some t0, importedModules := imps }
  | ensureBuildErr (c : CConfig n) (i : Fin n) (e1 : PyErr) (t0 : Table)
      (imps : List String)
      (hpc : c.threads i = .locked2) (hl : c.lock = some i)
      (hk : c.ENCODING_CONSTRUCTORS = none)
      (hf : findLoop env.plugins [] c.importedModules = (some e1, t0, imps)) :
      CStep env name c
        { c with threads := updThreads c.threads i (.done (.error e1)),
                 ENCODING_CONSTRUCTORS := some t0, importedModules := imps,
                 lock := none }
  | lookupUnknown (c : CConfig n) (i : Fin n) (t0 : Table)
      (hpc : c.threads i = .locked3) (hl : c.lock = some i)
      (hk : c.ENCODING_CONSTRUCTORS = some t0)
      (ht : dictLookup t0 name = none) :
      CStep env name c
        { c with threads := updThreads c.threads i (.done (.error (unknownError env name))),
                 lock := none }
  | invokeOk (c : CConfig n) (i : Fin n) (t0 : Table) (e1 : Encoding)
      (hpc : c.threads i = .locked3) (hl : c.lock = some i)
      (hk : c.ENCODING_CONSTRUCTORS = some t0)
      (ht : dictLookup t0 name = some (.ok e1)) :
      CStep env name c
        { c with threads := updThreads c.threads i (.locked4 ⟨c.nextId⟩),
                 factoryCalls := c.factoryCalls ++ [name],
                 nextId := c.nextId + 1 }
  | invokeErr (c : CConfig n) (i : Fin n) (t0 : Table) (msg : String)
      (hpc : c.threads i = .locked3) (hl : c.lock = some i)
      (hk : c.ENCODING_CONSTRUCTORS = some t0)
      (ht : dictLookup t0 name = some (.err msg)) :
      CStep env name c
        { c with threads := updThreads c.threads i (.done (.error (.other msg))),
                 factoryCalls := c.factoryCalls ++ [name], lock := none }
  | publish (c : CConfig n) (i : Fin n) (e : Encoding)
      (hpc : c.threads i = .locked4 e) (hl : c.lock = some i) :
      CStep env name c
        { c with threads := updThreads c.threads i (.done (.ok e)),
                 ENCODINGS := dictInsert c.ENCODINGS name e, lock := none }

/-- Reachability from the initial configuration by interleaved steps. -/
def CReachable (env : Env) (name : String) {n : Nat} (c : CConfig n) : Prop :=
  Relation.ReflTransGen (CStep env name) (initConfig n) c

/-- True of a thread inside the critical section (holding the lock). -/
def inCrit : TSt → Bool
  | .locked1 => true
  | .locked2 => true
  | .locked3 => true
  | .locked4 _ => true
  | _ => false

/-- True of a thread that re-checked the cache (miss) and has not yet
published: it holds the lock and the entry for `name` is still absent. -/
def at234 : TSt → Bool
  | .locked2 => true
  | .locked3 => true
  | .locked4 _ => true
  | _ => false

/-- True of a thread that has invoked the factory but not yet published. -/
def isAt4 : TSt → Bool
  | .locked4 _ => true
  | _ => false

/-- 1 when the cache holds an entry for `name`. -/
def cacheFlag (name : String) {n : Nat} (c : CConfig n) : Nat :=
  if (dictLookup c.ENCODINGS name).isSome then 1 else 0

/-- 1 when some thread has invoked the factory but not yet published. -/
def pendingFlag {n : Nat} (c : CConfig n) : Nat :=
  if ∃ i, isAt4 (c.threads i) = true then 1 else 0

/-- The inductive invariant for `n` threads racing on `name`, under an
environment whose table build succeeds with table `t` and whose factory for
`name` succeeds: mutual exclusion, the table is unset or fully built, the
cache stays empty for `name` while a thread is between re-check and publish,
the factory-invocation count equals cache-entry plus pending-construction,
every finished thread returned the currently cached object, and no thread
failed. -/
structure CInv (t : Table) (name : String) {n : Nat} (c : CConfig n) :
    Prop where
  lockOwn : ∀ i, inCrit (c.threads i) = true → c.lock = some i
  ctors : c.ENCODING_CONSTRUCTORS = none ∨ c.ENCODING_CONSTRUCTORS = some t
  noEntry : ∀ i, at234 (c.threads i) = true →
    dictLookup c.ENCODINGS name = none
  counts : c.factoryCalls.count name = cacheFlag name c + pendingFlag c
  doneOk : ∀ i e, c.threads i = TSt.done (.ok e) →
    dictLookup c.ENCODINGS name = some e
  noErr : ∀ i pe, c.threads i ≠ TSt.done (.error pe)

/-- One thread under `envA`, after its fast-path miss. -/
def cW1 : CConfig 1 := ⟨fun _ => .waiting, [], none, [], [], none, 0⟩

/-- ... after acquiring the lock. -/
def cW2 : CConfig 1 := ⟨fun _ => .locked1, [], none, [], [], some 0, 0⟩

/-- ... after the re-check miss. -/
def cW3 : CConfig 1 := ⟨fun _ => .locked2, [], none, [], [], some 0, 0⟩

/-- ... after building the constructor table. -/
def cW4 : CConfig 1 :=
  ⟨fun _ => .locked3, [], some tA, [], ["tiktoken_ext.openai_public"],
   some 0, 0⟩

/-- ... after invoking the factory and builder. -/
def cW5 : CConfig 1 :=
  ⟨fun _ => .locked4 ⟨0⟩, [], some tA, ["gpt2"],
   ["tiktoken_ext.openai_public"], some 0, 1⟩

/-- ... after publishing the encoding and releasing the lock: finished. -/
def cFinal : CConfig 1 :=
  ⟨fun _ => .done (.ok ⟨0⟩), [("gpt2", ⟨0⟩)], some tA, ["gpt2"],
   ["tiktoken_ext.openai_public"], none, 1⟩

/-! ### Dictionary lemmas -/

theorem dictLookup_insert_self {α : Type} (t : Dict α) (k : String) (v : α) :
    dictLookup (dictInsert t k v) k = some v := by
  induction t with
  | nil => simp [dictInsert, dictLookup]
  | cons hd tl ih =>
    by_cases h : hd.1 = k <;> simp [dictInsert, dictLookup, h, ih]

theorem dictLookup_insert_of_ne {α : Type} (t : Dict α) (k k' : String)
    (v : α) (h : k ≠ k') :
    dictLookup (dictInsert t k v) k' = dictLookup t k' := by
  induction t with
  | nil => simp [dictInsert, dictLookup, h]
  | cons hd tl ih =>
    by_cases hh : hd.1 = k
    · simp [dictInsert, dictLookup, hh, h]
    · by_cases hk : hd.1 = k'
      · simp [dictInsert, dictLookup, hh, hk, Ne.symm h]
      · simp [dictInsert, dictLookup, hh, hk, ih]

theorem dictInsert_keys_of_fresh {α : Type} (t : Dict α) (k : String) (v : α)
    (h : dictLookup t k = none) :
    (dictInsert t k v).map Prod.fst = t.map Prod.fst ++ [k] := by
  induction t with
  | nil => simp [dictInsert]
  | cons hd tl ih =>
    by_cases hh : hd.1 = k
    · simp [dictLookup, hh] at h
    · simp [dictLookup, hh] at h
      simp [dictInsert, hh, ih h]

/-! ### Characterization lemmas for [private] functions -/

theorem find_constructors_frame (env : Env) (s : RegState) :
    ((_find_constructors env s).2.ENCODINGS = s.ENCODINGS ∧
     (_find_constructors env s).2.factoryCalls = s.factoryCalls) := by
  unfold _find_constructors
  rcases hk : s.ENCODING_CONSTRUCTORS with _ | t
  · rcases hf : findLoop env.plugins [] s.importedModules with ⟨err, t', imps'⟩
    simp
  · simp

theorem find_constructors_noop (env : Env) (s : RegState) (t : Table)
    (h : s.ENCODING_CONSTRUCTORS = some t) :
    _find_constructors env s = (none, s) := by
  simp [_find_constructors, h]

theorem registerCtors_ok_keys (modName : String)
    (ctors : List (String × FactoryResult)) :
    ∀ t t', registerCtors modName ctors t = (none, t') →
      t'.map Prod.fst = t.map Prod.fst ++ ctors.map Prod.fst := by
  induction ctors with
  | nil => intro t t' h; simp [registerCtors] at h; simp [h]
  | cons hd tl ih =>
    intro t t' h
    rcases hl : dictLookup t hd.1 with _ | v
    · simp [registerCtors, hl] at h
      have := ih (dictInsert t hd.1 hd.2) t' h
      rw [this, dictInsert_keys_of_fresh t hd.1 hd.2 hl]
      simp
    · simp [registerCtors, hl] at h

theorem findLoop_ok_spec (mods : List (String × ModResult)) :
    ∀ t imps t' imps', findLoop mods t imps = (none, t', imps') →
      t'.map Prod.fst = t.map Prod.fst ++
        (mods.flatMap fun p =>
          match p.2 with
          | .ok cs => cs.map Prod.fst
          | _ => []) ∧
      imps' = imps ++ mods.map Prod.fst := by
  induction mods with
  | nil => intro t imps t' imps' h; simp [findLoop] at h; simp [h.1, h.2]
  | cons hd tl ih =>
    intro t imps t' imps' h
    rcases hd with ⟨modName, res⟩
    rcases res with ctors | _ | msg
    · rcases hr : registerCtors modName ctors t with ⟨err, t1⟩
      rcases err with _ | e
      · simp [findLoop, hr] at h
        obtain ⟨h1, h2⟩ := ih t1 (imps ++ [modName]) t' imps' h
        refine ⟨?_, ?_⟩
        · rw [h1, registerCtors_ok_keys modName ctors t t1 hr]
          simp [List.flatMap]
        · rw [h2]; simp
      · simp [findLoop, hr] at h
    · simp [findLoop] at h
    · simp [findLoop] at h

theorem get_encoding_cached (env : Env) (name : String) (s : RegState)
    (e : Encoding) (h : dictLookup s.ENCODINGS name = some e) :
    get_encoding env name s = (.ok e, s) := by
  simp [get_encoding, h]

theorem get_encoding_ok_inv (env : Env) (name : String) (s : RegState)
    (e : Encoding) (s' : RegState)
    (h : get_encoding env name s = (.ok e, s')) :
    dictLookup s'.ENCODINGS name = some e ∧
    (s'.factoryCalls = s.factoryCalls ∨
     s'.factoryCalls = s.factoryCalls ++ [name]) := by
  rcases hc : dictLookup s.ENCODINGS name with _ | enc
  · rcases hk : s.ENCODING_CONSTRUCTORS with _ | t
    · rcases hf : findLoop env.plugins [] s.importedModules with ⟨err, tb, imps⟩
      rcases err with _ | e0
      · rcases ht : dictLookup tb name with _ | ctor
        · simp [get_encoding, _find_constructors, hc, hk, hf, ht] at h
        · rcases ctor with enc | msg
          · simp [get_encoding, _find_constructors, hc, hk, hf, ht] at h
            obtain ⟨rfl, rfl⟩ := h
            refine ⟨?_, Or.inr (by simp)⟩
            simpa using dictLookup_insert_self s.ENCODINGS name enc
          · simp [get_encoding, _find_constructors, hc, hk, hf, ht] at h
      · simp [get_encoding, _find_constructors, hc, hk, hf] at h
    · rcases ht : dictLookup t name with _ | ctor
      · simp [get_encoding, hc, hk, ht] at h
      · rcases ctor with enc | msg
        · simp [get_encoding, hc, hk, ht] at h
          obtain ⟨rfl, rfl⟩ := h
          refine ⟨?_, Or.inr (by simp)⟩
          simpa using dictLookup_insert_self s.ENCODINGS name enc
        · simp [get_encoding, hc, hk, ht] at h
  · simp [get_encoding, hc] at h
    obtain ⟨rfl, rfl⟩ := h
    exact ⟨hc, Or.inl rfl⟩

theorem get_encoding_error_frame (env : Env) (name : String) (s : RegState)
    (e : PyErr) (s' : RegState)
    (h : get_encoding env name s = (.error e, s')) :
    s'.ENCODINGS = s.ENCODINGS := by
  rcases hc : dictLookup s.ENCODINGS name with _ | enc
  · rcases hk : s.ENCODING_CONSTRUCTORS with _ | t
    · rcases hf : findLoop env.plugins [] s.importedModules with ⟨err, tb, imps⟩
      rcases err with _ | e0
      · rcases ht : dictLookup tb name with _ | ctor
        · simp [get_encoding, _find_constructors, hc, hk, hf, ht] at h
          simp [h.2.symm]
        · rcases ctor with enc | msg
          · simp [get_encoding, _find_constructors, hc, hk, hf, ht] at h
          · simp [get_encoding, _find_constructors, hc, hk, hf, ht] at h
            simp [h.2.symm]
      · simp [get_encoding, _find_constructors, hc, hk, hf] at h
        simp [h.2.symm]
    · rcases ht : dictLookup t name with _ | ctor
      · simp [get_encoding, hc, hk, ht] at h
        simp [h.2.symm]
      · rcases ctor with enc | msg
        · simp [get_encoding, hc, hk, ht] at h
        · simp [get_encoding, hc, hk, ht] at h
          simp [h.2.symm]
  · simp [get_encoding, hc] at h

theorem get_encoding_unknown_eq (env : Env) (name : String) (s : RegState)
    (t : Table) (hmiss : dictLookup s.ENCODINGS name = none)
    (htab : s.ENCODING_CONSTRUCTORS = some t)
    (habs : dictLookup t name = none) :
    get_encoding env name s =
      (.error (.valueError (unknownEncodingMessage name
        (_available_plugin_modules env))), s) := by
  simp [get_encoding, hmiss, htab, habs]

theorem get_encoding_unknown_build_eq (env : Env) (name : String)
    (s : RegState) (t : Table) (imps : List String)
    (hmiss : dictLookup s.ENCODINGS name = none)
    (hnone : s.ENCODING_CONSTRUCTORS = none)
    (hbuild : findLoop env.plugins [] s.importedModules = (none, t, imps))
    (habs : dictLookup t name = none) :
    get_encoding env name s =
      (.error (.valueError (unknownEncodingMessage name
        (_available_plugin_modules env))),
       { s with ENCODING_CONSTRUCTORS := some t, importedModules := imps }) := by
  simp [get_encoding, _find_constructors, hmiss, hnone, hbuild, habs]

theorem list_encoding_names_frame (env : Env) (s : RegState) :
    (list_encoding_names env s).2.ENCODINGS = s.ENCODINGS ∧
    (list_encoding_names env s).2.factoryCalls = s.factoryCalls := by
  unfold list_encoding_names
  rcases hk : s.ENCODING_CONSTRUCTORS with _ | t
  · rcases hf : findLoop env.plugins [] s.importedModules with ⟨err, tb, imps⟩
    rcases err with _ | e0 <;> simp [_find_constructors, hk, hf]
  · simp [hk]

theorem registerCtors_err_valueError (modName : String)
    (ctors : List (String × FactoryResult)) :
    ∀ t e t', registerCtors modName ctors t = (some e, t') →
      ∃ m, e = PyErr.valueError m := by
  induction ctors with
  | nil => intro t e t' h; simp [registerCtors] at h
  | cons hd tl ih =>
    intro t e t' h
    rcases hl : dictLookup t hd.1 with _ | v
    · simp [registerCtors, hl] at h
      exact ih (dictInsert t hd.1 hd.2) e t' h
    · simp [registerCtors, hl] at h
      exact ⟨_, h.1.symm⟩

theorem findLoop_err_spec (mods : List (String × ModResult)) :
    ∀ t imps e t' imps', findLoop mods t imps = (some e, t', imps') →
      (∃ m, e = PyErr.valueError m) ∨
      (∃ modName m, (modName, ModResult.importError m) ∈ mods ∧
        e = PyErr.importError m) := by
  induction mods with
  | nil => intro t imps e t' imps' h; simp [findLoop] at h
  | cons hd tl ih =>
    intro t imps e t' imps' h
    rcases hd with ⟨modName, res⟩
    rcases res with ctors | _ | msg
    · rcases hr : registerCtors modName ctors t with ⟨err, t1⟩
      rcases err with _ | e1
      · simp [findLoop, hr] at h
        rcases ih t1 (imps ++ [modName]) e t' imps' h with h1 | ⟨m2, m3, hmem, he⟩
        · exact Or.inl h1
        · exact Or.inr ⟨m2, m3, List.mem_cons_of_mem _ hmem, he⟩
      · simp [findLoop, hr] at h
        obtain ⟨he, -, -⟩ := h
        rcases registerCtors_err_valueError modName ctors t e1 t1 hr with ⟨m, hm⟩
        exact Or.inl ⟨m, he ▸ hm⟩
    · simp [findLoop] at h
      obtain ⟨he, -, -⟩ := h
      exact Or.inl ⟨_, he.symm⟩
    · simp [findLoop] at h
      obtain ⟨he, -, -⟩ := h
      exact Or.inr ⟨modName, msg, List.mem_cons_self _ _, he.symm⟩

/-- Claim C2: for a name served successfully by `get_encoding`, the returned
object is cached under that name, a repeated call returns the identical
object with the state unchanged (hence without invoking the factory again),
and the call itself invoked the factory at most once. -/
theorem get_encoding_sequential_at_most_once (env : Env) (name : String)
    (s s' : RegState) (e : Encoding)
    (h : get_encoding env name s = (.ok e, s')) :
    dictLookup s'.ENCODINGS name = some e ∧
    get_encoding env name s' = (.ok e, s') ∧
    (s'.factoryCalls = s.factoryCalls ∨
     s'.factoryCalls = s.factoryCalls ++ [name]) := by
  obtain ⟨h1, h2⟩ := get_encoding_ok_inv env name s e s' h
  exact ⟨h1, get_encoding_cached env name s' e h1, h2⟩

theorem get_encoding_sequential_at_most_once_witness :
    dictLookup (RegState.mk [("gpt2", ⟨0⟩)]
        (some [("gpt2", .ok ⟨0⟩)]) ["gpt2"]
        ["tiktoken_ext.openai_public"]).ENCODINGS "gpt2" = some ⟨0⟩ ∧
    get_encoding ⟨[("tiktoken_ext.openai_public", .ok [("gpt2", .ok ⟨0⟩)])]⟩
        "gpt2" (RegState.mk [("gpt2", ⟨0⟩)] (some [("gpt2", .ok ⟨0⟩)])
          ["gpt2"] ["tiktoken_ext.openai_public"]) =
      (.ok ⟨0⟩, RegState.mk [("gpt2", ⟨0⟩)] (some [("gpt2", .ok ⟨0⟩)])
        ["gpt2"] ["tiktoken_ext.openai_public"]) ∧
    ((RegState.mk [("gpt2", ⟨0⟩)] (some [("gpt2", .ok ⟨0⟩)]) ["gpt2"]
        ["tiktoken_ext.openai_public"]).factoryCalls =
      initState.factoryCalls ∨
     (RegState.mk [("gpt2", ⟨0⟩)] (some [("gpt2", .ok ⟨0⟩)]) ["gpt2"]
        ["tiktoken_ext.openai_public"]).factoryCalls =
      initState.factoryCalls ++ ["gpt2"]) :=
  get_encoding_sequential_at_most_once
    ⟨[("tiktoken_ext.openai_public", .ok [("gpt2", .ok ⟨0⟩)])]⟩ "gpt2"
    initState _ ⟨0⟩ rfl

/-- Claim C5: for a name absent from the constructor table (and not cached),
`get_encoding` fails with the `Unknown encoding` `ValueError` whose message
carries the full available-plugin list, and the state — in particular the
encoding cache — is unchanged.  The second conjunct covers the call that
builds the table on demand: only the table/import fields change, never the
cache. -/
theorem get_encoding_unknown_name (env : Env) (name : String) (s : RegState)
    (t : Table) (hmiss : dictLookup s.ENCODINGS name = none)
    (habs : dictLookup t name = none) :
    (s.ENCODING_CONSTRUCTORS = some t →
      get_encoding env name s =
        (.error (.valueError (unknownEncodingMessage name
          (_available_plugin_modules env))), s)) ∧
    (∀ imps, s.ENCODING_CONSTRUCTORS = none →
      findLoop env.plugins [] s.importedModules = (none, t, imps) →
      get_encoding env name s =
        (.error (.valueError (unknownEncodingMessage name
          (_available_plugin_modules env))),
         { s with ENCODING_CONSTRUCTORS := some t,
                  importedModules := imps })) :=
  ⟨fun htab => get_encoding_unknown_eq env name s t hmiss htab habs,
   fun imps hnone hbuild =>
     get_encoding_unknown_build_eq env name s t imps hmiss hnone hbuild habs⟩

theorem get_encoding_unknown_name_witness :
    get_encoding envA "does-not-exist" sBuilt =
      (.error (.valueError (unknownEncodingMessage "does-not-exist"
        (_available_plugin_modules envA))), sBuilt) :=
  (get_encoding_unknown_name envA "does-not-exist" sBuilt tA rfl rfl).1 rfl

/-- Claim C6: `list_encoding_names` never constructs an encoding and never
invokes a factory (cache and factory log unchanged, for every state), and
when it builds the table from scratch successfully it returns exactly the
names contributed by the (necessarily all well-formed) plugins, in plugin
enumeration order then per-module registration order. -/
theorem list_encoding_names_complete (env : Env) (s : RegState) :
    ((list_encoding_names env s).2.ENCODINGS = s.ENCODINGS ∧
     (list_encoding_names env s).2.factoryCalls = s.factoryCalls) ∧
    (∀ t imps, s.ENCODING_CONSTRUCTORS = none →
      findLoop env.plugins [] s.importedModules = (none, t, imps) →
      (list_encoding_names env s).1 = .ok (wellFormedNames env)) := by
  refine ⟨list_encoding_names_frame env s, ?_⟩
  intro t imps hnone hbuild
  have hkeys := (findLoop_ok_spec env.plugins [] s.importedModules t imps
    hbuild).1
  simp only [list_encoding_names, _find_constructors, hnone, hbuild]
  simpa [wellFormedNames] using hkeys

theorem list_encoding_names_complete_witness :
    (list_encoding_names envA initState).1 = .ok (wellFormedNames envA) :=
  (list_encoding_names_complete envA initState).2 tA
    ["tiktoken_ext.openai_public"] rfl rfl

/-- Claim C7: when the factory or the encoding builder raises during
`get_encoding`, the error propagates to the caller, only the factory-call log
changes (so the encoding cache gains no entry for the name), and a repeated
call attempts the factory again (logging a second invocation) and fails the
same way. -/
theorem get_encoding_factory_failure_retry (env : Env) (name : String)
    (s : RegState) (t : Table) (msg : String)
    (hmiss : dictLookup s.ENCODINGS name = none)
    (htab : s.ENCODING_CONSTRUCTORS = some t)
    (hctor : dictLookup t name = some (.err msg)) :
    get_encoding env name s =
      (.error (.other msg),
       { s with factoryCalls := s.factoryCalls ++ [name] }) ∧
    get_encoding env name { s with factoryCalls := s.factoryCalls ++ [name] } =
      (.error (.other msg),
       { s with factoryCalls := (s.factoryCalls ++ [name]) ++ [name] }) := by
  constructor
  · simp [get_encoding, hmiss, htab, hctor]
  · simp [get_encoding, hmiss, htab, hctor]

theorem get_encoding_factory_failure_retry_witness :
    get_encoding envErr "boom" sErrBuilt =
      (.error (.other "boom failed"),
       { sErrBuilt with factoryCalls := sErrBuilt.factoryCalls ++ ["boom"] }) ∧
    get_encoding envErr "boom"
        { sErrBuilt with factoryCalls := sErrBuilt.factoryCalls ++ ["boom"] } =
      (.error (.other "boom failed"),
       { sErrBuilt with
          factoryCalls := (sErrBuilt.factoryCalls ++ ["boom"]) ++ ["boom"] }) :=
  get_encoding_factory_failure_retry envErr "boom" sErrBuilt tErr
    "boom failed" rfl rfl rfl

/-- Claim C8: once the constructor table is built, `_find_constructors` is a
no-op returning the state unchanged, `get_encoding` leaves the table and
the module-load log untouched (no module is re-imported, no rebuild), and
`list_encoding_names` returns the already-built table's names with the state
unchanged. -/
theorem table_build_idempotent (env : Env) (name : String) (s : RegState)
    (t : Table) (h : s.ENCODING_CONSTRUCTORS = some t) :
    _find_constructors env s = (none, s) ∧
    (get_encoding env name s).2.ENCODING_CONSTRUCTORS = some t ∧
    (get_encoding env name s).2.importedModules = s.importedModules ∧
    list_encoding_names env s = (.ok (t.map Prod.fst), s) := by
  have hg : (get_encoding env name s).2.ENCODING_CONSTRUCTORS = some t ∧
      (get_encoding env name s).2.importedModules = s.importedModules := by
    rcases hc : dictLookup s.ENCODINGS name with _ | enc
    · rcases ht : dictLookup t name with _ | ctor
      · simp [get_encoding, hc, h, ht]
      · rcases ctor with enc | msg
        · simp [get_encoding, hc, h, ht]
        · simp [get_encoding, hc, h, ht]
    · simp [get_encoding, hc, h]
  exact ⟨find_constructors_noop env s t h, hg.1, hg.2,
    by simp [list_encoding_names, h]⟩

theorem table_build_idempotent_witness :
    _find_constructors envA sBuilt = (none, sBuilt) ∧
    (get_encoding envA "gpt2" sBuilt).2.ENCODING_CONSTRUCTORS = some tA ∧
    (get_encoding envA "gpt2" sBuilt).2.importedModules =
      sBuilt.importedModules ∧
    list_encoding_names envA sBuilt = (.ok (tA.map Prod.fst), sBuilt) :=
  table_build_idempotent envA "gpt2" sBuilt tA rfl

/-- Claim C9: the encoding cache grows monotonically — any `get_encoding`
call preserves every existing cache entry (same name, same object), and
`list_encoding_names` leaves the cache exactly as it was. -/
theorem encoding_cache_monotone (env : Env) (name : String) (s : RegState) :
    (∀ k e, dictLookup s.ENCODINGS k = some e →
      dictLookup ((get_encoding env name s).2).ENCODINGS k = some e) ∧
    (list_encoding_names env s).2.ENCODINGS = s.ENCODINGS := by
  constructor
  · intro k e hke
    rcases hc : dictLookup s.ENCODINGS name with _ | enc
    · have hne : name ≠ k := by
        intro hnk
        rw [hnk, hke] at hc
        cases hc
      rcases hk : s.ENCODING_CONSTRUCTORS with _ | t
      · rcases hf : findLoop env.plugins [] s.importedModules with
          ⟨err, tb, imps⟩
        rcases err with _ | e0
        · rcases ht : dictLookup tb name with _ | ctor
          · simpa [get_encoding, _find_constructors, hc, hk, hf, ht] using hke
          · rcases ctor with enc | msg
            · simp [get_encoding, _find_constructors, hc, hk, hf, ht]
              rw [dictLookup_insert_of_ne _ _ _ _ hne]
              exact hke
            · simpa [get_encoding, _find_constructors, hc, hk, hf, ht]
                using hke
        · simpa [get_encoding, _find_constructors, hc, hk, hf] using hke
      · rcases ht : dictLookup t name with _ | ctor
        · simpa [get_encoding, hc, hk, ht] using hke
        · rcases ctor with enc | msg
          · simp [get_encoding, hc, hk, ht]
            rw [dictLookup_insert_of_ne _ _ _ _ hne]
            exact hke
          · simpa [get_encoding, hc, hk, ht] using hke
    · simpa [get_encoding, hc] using hke
  · exact (list_encoding_names_frame env s).1

theorem encoding_cache_monotone_witness :
    dictLookup ((get_encoding envA "does-not-exist" sA).2).ENCODINGS "gpt2" =
      some ⟨0⟩ :=
  (encoding_cache_monotone envA "does-not-exist" sA).1 "gpt2" ⟨0⟩ rfl

/-- Claim C10: every failure the registration loop itself reports is a
`ValueError` (malformed plugin and duplicate name alike), except a failed
module import, which propagates as the original `ImportError` of that
module; and the unknown-encoding failure of `get_encoding` is likewise a
`ValueError` carrying only a message. -/
theorem registry_error_types (mods : List (String × ModResult)) :
    (∀ t imps e t' imps', findLoop mods t imps = (some e, t', imps') →
      (∃ m, e = PyErr.valueError m) ∨
      (∃ modName m, (modName, ModResult.importError m) ∈ mods ∧
        e = PyErr.importError m)) ∧
    (∀ env name s tb, dictLookup s.ENCODINGS name = none →
      s.ENCODING_CONSTRUCTORS = some tb → dictLookup tb name = none →
      (get_encoding env name s).1 =
        .error (.valueError (unknownEncodingMessage name
          (_available_plugin_modules env)))) :=
  ⟨findLoop_err_spec mods,
   fun env name s tb hmiss htab habs => by
     rw [get_encoding_unknown_eq env name s tb hmiss htab habs]⟩

theorem registry_error_types_witness :
    ((∃ m, PyErr.valueError
        "Duplicate encoding name x in tiktoken plugin tiktoken_ext.plugin_b" =
        PyErr.valueError m) ∨
     (∃ modName m, (modName, ModResult.importError m) ∈ envDup.plugins ∧
        PyErr.valueError
          "Duplicate encoding name x in tiktoken plugin tiktoken_ext.plugin_b" =
          PyErr.importError m)) ∧
    (get_encoding envA "does-not-exist" sBuilt).1 =
      .error (.valueError (unknownEncodingMessage "does-not-exist"
        (_available_plugin_modules envA))) :=
  ⟨(registry_error_types envDup.plugins).1 [] []
      (PyErr.valueError
        "Duplicate encoding name x in tiktoken plugin tiktoken_ext.plugin_b")
      [("x", .ok ⟨0⟩)]
      ["tiktoken_ext.plugin_a", "tiktoken_ext.plugin_b"] rfl,
   (registry_error_types envDup.plugins).2 envA "does-not-exist" sBuilt tA
      rfl rfl rfl⟩

/-- Claim C3 (divergence of the code from the spec): under `envDup` (two
plugins both registering `x`), table construction fails with the duplicate
`ValueError`, yet the registry publishes the partial table built so far
(`ENCODING_CONSTRUCTORS` is left as `{x : factory_of_plugin_a}`, not reset
to its pre-build `none`), and a later public call does not attempt the build
again: it imports no module and answers from the partial table. -/
theorem find_constructors_publishes_partial_table :
    (_find_constructors envDup initState).1 =
      some (.valueError
        "Duplicate encoding name x in tiktoken plugin tiktoken_ext.plugin_b") ∧
    (_find_constructors envDup initState).2.ENCODING_CONSTRUCTORS =
      some [("x", .ok ⟨0⟩)] ∧
    list_encoding_names envDup (_find_constructors envDup initState).2 =
      (.ok ["x"], (_find_constructors envDup initState).2) :=
  ⟨rfl, rfl, rfl⟩

/-- Claim C4 (divergence of the code from the spec): under `envDup`, the
first `get_encoding "x"` fails with the duplicate `ValueError` naming the
encoding and the offending module, but a second `get_encoding "x"` in the
same process SUCCEEDS (returning plugin_a's encoding from the published
partial table) — contradicting the claim that `x` is never constructible
after such a failure. -/
theorem get_encoding_succeeds_after_duplicate_failure :
    (get_encoding envDup "x" initState).1 =
      .error (.valueError
        "Duplicate encoding name x in tiktoken plugin tiktoken_ext.plugin_b") ∧
    (get_encoding envDup "x" (get_encoding envDup "x" initState).2).1 =
      .ok ⟨0⟩ :=
  ⟨rfl, rfl⟩

theorem updThreads_self {n : Nat} (ts : Fin n → TSt) (i : Fin n) (v : TSt) :
    updThreads ts i v i = v := by
  simp [updThreads]

theorem updThreads_ne {n : Nat} (ts : Fin n → TSt) (i j : Fin n) (v : TSt)
    (h : j ≠ i) : updThreads ts i v j = ts j := by
  simp [updThreads, h]

theorem at234_inCrit (x : TSt) (h : at234 x = true) : inCrit x = true := by
  cases x <;> simp_all [at234, inCrit]

theorem isAt4_inCrit (x : TSt) (h : isAt4 x = true) : inCrit x = true := by
  cases x <;> simp_all [isAt4, inCrit]

theorem pendingFlag_zero {n : Nat} (c : CConfig n)
    (h : ∀ i, isAt4 (c.threads i) = false) : pendingFlag c = 0 := by
  unfold pendingFlag
  rw [if_neg]
  rintro ⟨i, hi⟩
  rw [h i] at hi
  cases hi

theorem pendingFlag_one {n : Nat} (c : CConfig n) (i : Fin n)
    (h : isAt4 (c.threads i) = true) : pendingFlag c = 1 := by
  unfold pendingFlag
  exact if_pos ⟨i, h⟩

theorem pendingFlag_update_noneAt4 {n : Nat} (c c' : CConfig n) (i : Fin n)
    (v : TSt) (ht : c'.threads = updThreads c.threads i v)
    (hv : isAt4 v = false) (hi : isAt4 (c.threads i) = false) :
    pendingFlag c' = pendingFlag c := by
  unfold pendingFlag
  rw [ht]
  have hiff : (∃ j, isAt4 (updThreads c.threads i v j) = true) ↔
      (∃ j, isAt4 (c.threads j) = true) := by
    constructor
    · rintro ⟨j, hj⟩
      by_cases hji : j = i
      · subst hji
        rw [updThreads_self] at hj
        rw [hv] at hj
        cases hj
      · rw [updThreads_ne _ _ _ _ hji] at hj
        exact ⟨j, hj⟩
    · rintro ⟨j, hj⟩
      by_cases hji : j = i
      · subst hji
        rw [hi] at hj
        cases hj
      · exact ⟨j, by rw [updThreads_ne _ _ _ _ hji]; exact hj⟩
  simp [hiff]

theorem findLoop_imps_indep (mods : List (String × ModResult)) :
    ∀ tb imps, findLoop mods tb imps =
      ((findLoop mods tb []).1, (findLoop mods tb []).2.1,
       imps ++ (findLoop mods tb []).2.2) := by
  induction mods with
  | nil => intro tb imps; simp [findLoop]
  | cons hd tl ih =>
    intro tb imps
    rcases hd with ⟨modName, res⟩
    rcases res with ctors | _ | msg
    · rcases hr : registerCtors modName ctors tb with ⟨err, t1⟩
      rcases err with _ | e1
      · simp only [findLoop, hr]
        rw [ih t1 (imps ++ [modName]), ih t1 ([] ++ [modName])]
        simp
      · simp [findLoop, hr]
    · simp [findLoop]
    · simp [findLoop]

theorem findLoop_build_any (env : Env) (t : Table) (imps0 : List String)
    (hbuild : findLoop env.plugins [] [] = (none, t, imps0))
    (imps : List String) :
    findLoop env.plugins [] imps = (none, t, imps ++ imps0) := by
  rw [findLoop_imps_indep env.plugins [] imps, hbuild]

theorem CInv_update_threads_only (t : Table) (name : String) {n : Nat}
    (c : CConfig n) (i : Fin n) (v : TSt) (hinv : CInv t name c)
    (hcrit : inCrit v = true → c.lock = some i)
    (h234 : at234 v = true → dictLookup c.ENCODINGS name = none)
    (h4 : isAt4 v = false) (h4i : isAt4 (c.threads i) = false)
    (hdone : ∀ e, v = TSt.done (.ok e) → dictLookup c.ENCODINGS name = some e)
    (herr : ∀ pe, v ≠ TSt.done (.error pe)) :
    CInv t name { c with threads := updThreads c.threads i v } := by
  obtain ⟨hLock, hCtors, hNoE, hCnt, hDone, hNoErr⟩ := hinv
  refine ⟨?_, hCtors, ?_, ?_, ?_, ?_⟩
  · intro j hj
    dsimp only at hj ⊢
    by_cases hji : j = i
    · subst hji
      rw [updThreads_self] at hj
      exact hcrit hj
    · rw [updThreads_ne _ _ _ _ hji] at hj
      exact hLock j hj
  · intro j hj
    dsimp only at hj ⊢
    by_cases hji : j = i
    · subst hji
      rw [updThreads_self] at hj
      exact h234 hj
    · rw [updThreads_ne _ _ _ _ hji] at hj
      exact hNoE j hj
  · have hp : pendingFlag { c with threads := updThreads c.threads i v } =
        pendingFlag c :=
      pendingFlag_update_noneAt4 c _ i v rfl h4 h4i
    show c.factoryCalls.count name = cacheFlag name c + _
    rw [hp]
    exact hCnt
  · intro j e hj
    dsimp only at hj ⊢
    by_cases hji : j = i
    · subst hji
      rw [updThreads_self] at hj
      exact hdone e hj
    · rw [updThreads_ne _ _ _ _ hji] at hj
      exact hDone j e hj
  · intro j pe hj
    dsimp only at hj
    by_cases hji : j = i
    · subst hji
      rw [updThreads_self] at hj
      exact herr pe hj
    · rw [updThreads_ne _ _ _ _ hji] at hj
      exact hNoErr j pe hj

theorem CInv_step (env : Env) (name : String) (t : Table)
    (imps0 : List String) (e0 : Encoding)
    (hbuild : findLoop env.plugins [] [] = (none, t, imps0))
    (hname : dictLookup t name = some (.ok e0))
    {n : Nat} {c c' : CConfig n}
    (hstep : CStep env name c c') (hinv : CInv t name c) :
    CInv t name c' := by
  obtain ⟨hLock, hCtors, hNoE, hCnt, hDone, hNoErr⟩ := hinv
  cases hstep with
  | fastHit i e hpc hc =>
    refine CInv_update_threads_only t name c i _
      ⟨hLock, hCtors, hNoE, hCnt, hDone, hNoErr⟩
      (by intro h; simp [inCrit] at h)
      (by intro h; simp [at234] at h)
      rfl (by rw [hpc]; rfl) ?_ (by intro pe h; simp at h)
    intro e' he'
    simp only [TSt.done.injEq, Except.ok.injEq] at he'
    exact he' ▸ hc
  | fastMiss i hpc hc =>
    exact CInv_update_threads_only t name c i _
      ⟨hLock, hCtors, hNoE, hCnt, hDone, hNoErr⟩
      (by intro h; simp [inCrit] at h)
      (by intro h; simp [at234] at h)
      rfl (by rw [hpc]; rfl)
      (by intro e' he'; simp at he')
      (by intro pe h; simp at h)
  | acquire i hpc hl =>
    refine ⟨?_, hCtors, ?_, ?_, ?_, ?_⟩
    · intro j hj
      dsimp only at hj ⊢
      by_cases hji : j = i
      · subst hji; rfl
      · rw [updThreads_ne _ _ _ _ hji] at hj
        have h2 := hLock j hj
        rw [hl] at h2
        cases h2
    · intro j hj
      dsimp only at hj ⊢
      by_cases hji : j = i
      · subst hji
        rw [updThreads_self] at hj
        simp [at234] at hj
      · rw [updThreads_ne _ _ _ _ hji] at hj
        exact hNoE j hj
    · have hp : pendingFlag { c with
          threads := updThreads c.threads i TSt.locked1, lock := some i } =
          pendingFlag c :=
        pendingFlag_update_noneAt4 c _ i _ rfl rfl (by rw [hpc]; rfl)
      show c.factoryCalls.count name = cacheFlag name c + _
      rw [hp]
      exact hCnt
    · intro j e hj
      dsimp only at hj ⊢
      by_cases hji : j = i
      · subst hji
        rw [updThreads_self] at hj
        simp at hj
      · rw [updThreads_ne _ _ _ _ hji] at hj
        exact hDone j e hj
    · intro j pe hj
      dsimp only at hj
      by_cases hji : j = i
      · subst hji
        rw [updThreads_self] at hj
        simp at hj
      · rw [updThreads_ne _ _ _ _ hji] at hj
        exact hNoErr j pe hj
  | recheckHit i e hpc hl hc =>
    refine ⟨?_, hCtors, ?_, ?_, ?_, ?_⟩
    · intro j hj
      dsimp only at hj ⊢
      by_cases hji : j = i
      · subst hji
        rw [updThreads_self] at hj
        simp [inCrit] at hj
      · rw [updThreads_ne _ _ _ _ hji] at hj
        have h2 := hLock j hj
        rw [hl] at h2
        exact absurd (Option.some.inj h2).symm hji
    · intro j hj
      dsimp only at hj ⊢
      by_cases hji : j = i
      · subst hji
        rw [updThreads_self] at hj
        simp [at234] at hj
      · rw [updThreads_ne _ _ _ _ hji] at hj
        exact hNoE j hj
    · have hp : pendingFlag { c with
          threads := updThreads c.threads i (TSt.done (.ok e)),
          lock := none } = pendingFlag c :=
        pendingFlag_update_noneAt4 c _ i _ rfl rfl (by rw [hpc]; rfl)
      show c.factoryCalls.count name = cacheFlag name c + _
      rw [hp]
      exact hCnt
    · intro j e' hj
      dsimp only at hj ⊢
      by_cases hji : j = i
      · subst hji
        rw [updThreads_self] at hj
        simp only [TSt.done.injEq, Except.ok.injEq] at hj
        exact hj ▸ hc
      · rw [updThreads_ne _ _ _ _ hji] at hj
        exact hDone j e' hj
    · intro j pe hj
      dsimp only at hj
      by_cases hji : j = i
      · subst hji
        rw [updThreads_self] at hj
        simp at hj
      · rw [updThreads_ne _ _ _ _ hji] at hj
        exact hNoErr j pe hj
  | recheckMiss i hpc hl hc =>
    exact CInv_update_threads_only t name c i _
      ⟨hLock, hCtors, hNoE, hCnt, hDone, hNoErr⟩
      (fun _ => hl) (fun _ => hc) rfl (by rw [hpc]; rfl)
      (by intro e' he'; simp at he')
      (by intro pe h; simp at h)
  | ensureSkip i t0 hpc hl hk =>
    exact CInv_update_threads_only t name c i _
      ⟨hLock, hCtors, hNoE, hCnt, hDone, hNoErr⟩
      (fun _ => hl) (fun _ => hNoE i (by rw [hpc]; rfl)) rfl
      (by rw [hpc]; rfl)
      (by intro e' he'; simp at he')
      (by intro pe h; simp at h)
  | ensureBuildOk i t0 imps hpc hl hk hf =>
    have h2 := findLoop_build_any env t imps0 hbuild c.importedModules
    rw [hf] at h2
    simp only [Prod.mk.injEq] at h2
    obtain ⟨-, rfl, -⟩ := h2
    refine ⟨?_, Or.inr rfl, ?_, ?_, ?_, ?_⟩
    · intro j hj
      dsimp only at hj ⊢
      by_cases hji : j = i
      · subst hji; exact hl
      · rw [updThreads_ne _ _ _ _ hji] at hj
        exact hLock j hj
    · intro j hj
      dsimp only at hj ⊢
      by_cases hji : j = i
      · subst hji
        exact hNoE j (by rw [hpc]; rfl)
      · rw [updThreads_ne _ _ _ _ hji] at hj
        exact hNoE j hj
    · have hp : pendingFlag { c with
          threads := updThreads c.threads i TSt.locked3,
          ENCODING_CONSTRUCTORS := some t0, importedModules := imps } =
          pendingFlag c :=
        pendingFlag_update_noneAt4 c _ i _ rfl rfl (by rw [hpc]; rfl)
      show c.factoryCalls.count name = cacheFlag name c + _
      rw [hp]
      exact hCnt
    · intro j e hj
      dsimp only at hj ⊢
      by_cases hji : j = i
      · subst hji
        rw [updThreads_self] at hj
        simp at hj
      · rw [updThreads_ne _ _ _ _ hji] at hj
        exact hDone j e hj
    · intro j pe hj
      dsimp only at hj
      by_cases hji : j = i
      · subst hji
        rw [updThreads_self] at hj
        simp at hj
      · rw [updThreads_ne _ _ _ _ hji] at hj
        exact hNoErr j pe hj
  | ensureBuildErr i e1 t0 imps hpc hl hk hf =>
    have h2 := findLoop_build_any env t imps0 hbuild c.importedModules
    rw [hf] at h2
    simp at h2
  | lookupUnknown i t0 hpc hl hk ht =>
    rcases hCtors with hk2 | hk2
    · rw [hk] at hk2; cases hk2
    · rw [hk] at hk2
      obtain rfl := Option.some.inj hk2
      rw [hname] at ht
      cases ht
  | invokeErr i t0 msg hpc hl hk ht =>
    rcases hCtors with hk2 | hk2
    · rw [hk] at hk2; cases hk2
    · rw [hk] at hk2
      obtain rfl := Option.some.inj hk2
      rw [hname] at ht
      simp at ht
  | invokeOk i t0 e1 hpc hl hk ht =>
    have hnone : dictLookup c.ENCODINGS name = none :=
      hNoE i (by rw [hpc]; rfl)
    have hno4 : ∀ j, isAt4 (c.threads j) = false := by
      intro j
      cases hb : isAt4 (c.threads j) with
      | false => rfl
      | true =>
        exfalso
        have hcritj := isAt4_inCrit _ hb
        have h2 := hLock j hcritj
        rw [hl] at h2
        rw [← Option.some.inj h2, hpc] at hb
        simp [isAt4] at hb
    refine ⟨?_, hCtors, ?_, ?_, ?_, ?_⟩
    · intro j hj
      dsimp only at hj ⊢
      by_cases hji : j = i
      · subst hji; exact hl
      · rw [updThreads_ne _ _ _ _ hji] at hj
        exact hLock j hj
    · intro j hj
      dsimp only at hj ⊢
      by_cases hji : j = i
      · subst hji; exact hnone
      · rw [updThreads_ne _ _ _ _ hji] at hj
        exact hNoE j hj
    · have hcnt0 : c.factoryCalls.count name = 0 := by
        rw [hCnt, pendingFlag_zero c hno4]
        simp [cacheFlag, hnone]
      have hp1 : pendingFlag { c with
          threads := updThreads c.threads i (TSt.locked4 ⟨c.nextId⟩),
          factoryCalls := c.factoryCalls ++ [name],
          nextId := c.nextId + 1 } = 1 := by
        refine pendingFlag_one _ i ?_
        dsimp only
        rw [updThreads_self]
        rfl
      show (c.factoryCalls ++ [name]).count name = _ + _
      rw [hp1]
      simp [cacheFlag, hnone, List.count_append, hcnt0]
    · intro j e hj
      dsimp only at hj ⊢
      by_cases hji : j = i
      · subst hji
        rw [updThreads_self] at hj
        simp at hj
      · rw [updThreads_ne _ _ _ _ hji] at hj
        exact hDone j e hj
    · intro j pe hj
      dsimp only at hj
      by_cases hji : j = i
      · subst hji
        rw [updThreads_self] at hj
        simp at hj
      · rw [updThreads_ne _ _ _ _ hji] at hj
        exact hNoErr j pe hj
  | publish i e hpc hl =>
    have hnone : dictLookup c.ENCODINGS name = none :=
      hNoE i (by rw [hpc]; rfl)
    refine ⟨?_, hCtors, ?_, ?_, ?_, ?_⟩
    · intro j hj
      dsimp only at hj ⊢
      by_cases hji : j = i
      · subst hji
        rw [updThreads_self] at hj
        simp [inCrit] at hj
      · rw [updThreads_ne _ _ _ _ hji] at hj
        have h2 := hLock j hj
        rw [hl] at h2
        exact absurd (Option.some.inj h2).symm hji
    · intro j hj
      dsimp only at hj ⊢
      by_cases hji : j = i
      · subst hji
        rw [updThreads_self] at hj
        simp [at234] at hj
      · rw [updThreads_ne _ _ _ _ hji] at hj
        have h2 := hLock j (at234_inCrit _ hj)
        rw [hl] at h2
        exact absurd (Option.some.inj h2).symm hji
    · have hno4' : ∀ j, isAt4 (updThreads c.threads i (TSt.done (.ok e)) j)
          = false := by
        intro j
        by_cases hji : j = i
        · subst hji
          rw [updThreads_self]
          rfl
        · rw [updThreads_ne _ _ _ _ hji]
          cases hb : isAt4 (c.threads j) with
          | false => rfl
          | true =>
            exfalso
            have h2 := hLock j (isAt4_inCrit _ hb)
            rw [hl] at h2
            exact absurd (Option.some.inj h2).symm hji
      have hp0 : pendingFlag { c with
          threads := updThreads c.threads i (TSt.done (.ok e)),
          ENCODINGS := dictInsert c.ENCODINGS name e, lock := none } = 0 :=
        pendingFlag_zero _ hno4'
      have hpre : pendingFlag c = 1 :=
        pendingFlag_one c i (by rw [hpc]; rfl)
      rw [hCnt, hpre, hp0]
      simp [cacheFlag, hnone, dictLookup_insert_self]
    · intro j e' hj
      dsimp only at hj ⊢
      by_cases hji : j = i
      · subst hji
        rw [updThreads_self] at hj
        simp only [TSt.done.injEq, Except.ok.injEq] at hj
        exact hj ▸ dictLookup_insert_self c.ENCODINGS name e
      · rw [updThreads_ne _ _ _ _ hji] at hj
        have h2 := hDone j e' hj
        rw [hnone] at h2
        cases h2
    · intro j pe hj
      dsimp only at hj
      by_cases hji : j = i
      · subst hji
        rw [updThreads_self] at hj
        simp at hj
      · rw [updThreads_ne _ _ _ _ hji] at hj
        exact hNoErr j pe hj

theorem CInv_init (t : Table) (name : String) (n : Nat) :
    CInv t name (initConfig n) := by
  refine ⟨?_, Or.inl rfl, ?_, ?_, ?_, ?_⟩
  · intro i h
    simp [initConfig, inCrit] at h
  · intro i h
    rfl
  · have hp : pendingFlag (initConfig n) = 0 :=
      pendingFlag_zero _ (fun i => rfl)
    rw [hp]
    simp [initConfig, cacheFlag, dictLookup]
  · intro i e h
    simp [initConfig] at h
  · intro i pe h
    simp [initConfig] at h

theorem CInv_reachable (env : Env) (name : String) (t : Table)
    (imps0 : List String) (e0 : Encoding)
    (hbuild : findLoop env.plugins [] [] = (none, t, imps0))
    (hname : dictLookup t name = some (.ok e0))
    {n : Nat} {c : CConfig n} (h : CReachable env name c) :
    CInv t name c := by
  induction h with
  | refl => exact CInv_init t name n
  | tail hsteps hstep ih =>
    exact CInv_step env name t imps0 e0 hbuild hname hstep ih

/-- Claim C1: with `n` threads (`n ≥ 1`) all calling `get_encoding(name)`
concurrently in a process whose table build succeeds and whose factory for
`name` succeeds, in every reachable configuration in which all threads have
finished, the factory/builder was invoked exactly once and every thread
returned the one constructed object (objects carry fresh identities per
invocation, so this is object identity, not mere value equality). -/
theorem get_encoding_concurrent_at_most_once (env : Env) (name : String)
    (t : Table) (imps0 : List String) (e0 : Encoding) {n : Nat}
    (hn : 0 < n)
    (hbuild : findLoop env.plugins [] [] = (none, t, imps0))
    (hname : dictLookup t name = some (.ok e0))
    (c : CConfig n) (hreach : CReachable env name c)
    (hdone : ∀ i : Fin n, ∃ r, c.threads i = TSt.done r) :
    c.factoryCalls.count name = 1 ∧
    ∃ e, ∀ i : Fin n, c.threads i = TSt.done (.ok e) := by
  obtain ⟨hLock, hCtors, hNoE, hCnt, hDone, hNoErr⟩ :=
    CInv_reachable env name t imps0 e0 hbuild hname hreach
  have hok : ∀ i : Fin n, ∃ e, c.threads i = TSt.done (.ok e) := by
    intro i
    obtain ⟨r, hr⟩ := hdone i
    cases r with
    | error pe => exact absurd hr (hNoErr i pe)
    | ok e => exact ⟨e, hr⟩
  have hno4 : ∀ i, isAt4 (c.threads i) = false := by
    intro i
    obtain ⟨e, he⟩ := hok i
    rw [he]
    rfl
  obtain ⟨ew, hew⟩ := hok ⟨0, hn⟩
  have hcache := hDone ⟨0, hn⟩ ew hew
  constructor
  · rw [hCnt, pendingFlag_zero c hno4]
    simp [cacheFlag, hcache]
  · refine ⟨ew, ?_⟩
    intro i
    obtain ⟨e, he⟩ := hok i
    have h2 := hDone i e he
    rw [hcache] at h2
    obtain rfl := Option.some.inj h2
    exact he

theorem fin1_eq_zero (j : Fin 1) : j = 0 := Fin.eq_zero j

theorem cW1_step :
    CStep envA "gpt2" (initConfig 1) cW1 := by
  have h : CStep envA "gpt2" (initConfig 1)
      { initConfig 1 with
        threads := updThreads (initConfig 1).threads 0 TSt.waiting } :=
    CStep.fastMiss _ 0 rfl rfl
  have he : ({ initConfig 1 with
      threads := updThreads (initConfig 1).threads 0 TSt.waiting } :
      CConfig 1) = cW1 := by
    dsimp only [initConfig, cW1]
    congr 1
    funext j
    rw [fin1_eq_zero j, updThreads_self]
  exact he ▸ h

theorem cW2_step : CStep envA "gpt2" cW1 cW2 := by
  have h : CStep envA "gpt2" cW1
      { cW1 with threads := updThreads cW1.threads 0 TSt.locked1,
                 lock := some 0 } :=
    CStep.acquire _ 0 rfl rfl
  have he : ({ cW1 with
      threads := updThreads cW1.threads 0 TSt.locked1,
      lock := some 0 } : CConfig 1) = cW2 := by
    dsimp only [cW1, cW2]
    congr 1
    funext j
    rw [fin1_eq_zero j, updThreads_self]
  exact he ▸ h

theorem cW3_step : CStep envA "gpt2" cW2 cW3 := by
  have h : CStep envA "gpt2" cW2
      { cW2 with threads := updThreads cW2.threads 0 TSt.locked2 } :=
    CStep.recheckMiss _ 0 rfl rfl rfl
  have he : ({ cW2 with threads := updThreads cW2.threads 0 TSt.locked2 } :
      CConfig 1) = cW3 := by
    dsimp only [cW2, cW3]
    congr 1
    funext j
    rw [fin1_eq_zero j, updThreads_self]
  exact he ▸ h

theorem cW4_step : CStep envA "gpt2" cW3 cW4 := by
  have h : CStep envA "gpt2" cW3
      { cW3 with threads := updThreads cW3.threads 0 TSt.locked3,
                 ENCODING_CONSTRUCTORS := some tA,
                 importedModules := ["tiktoken_ext.openai_public"] } :=
    CStep.ensureBuildOk _ 0 tA ["tiktoken_ext.openai_public"] rfl rfl rfl rfl
  have he : ({ cW3 with
      threads := updThreads cW3.threads 0 TSt.locked3,
      ENCODING_CONSTRUCTORS := some tA,
      importedModules := ["tiktoken_ext.openai_public"] } :
      CConfig 1) = cW4 := by
    dsimp only [cW3, cW4]
    congr 1
    funext j
    rw [fin1_eq_zero j, updThreads_self]
  exact he ▸ h

theorem cW5_step : CStep envA "gpt2" cW4 cW5 := by
  have h : CStep envA "gpt2" cW4
      { cW4 with threads := updThreads cW4.threads 0 (TSt.locked4 ⟨cW4.nextId⟩),
                 factoryCalls := cW4.factoryCalls ++ ["gpt2"],
                 nextId := cW4.nextId + 1 } :=
    CStep.invokeOk _ 0 tA ⟨0⟩ rfl rfl rfl rfl
  have he : ({ cW4 with
      threads := updThreads cW4.threads 0 (TSt.locked4 ⟨cW4.nextId⟩),
      factoryCalls := cW4.factoryCalls ++ ["gpt2"],
      nextId := cW4.nextId + 1 } : CConfig 1) = cW5 := by
    dsimp only [cW4, cW5]
    congr 1
    funext j
    rw [fin1_eq_zero j, updThreads_self]
  exact he ▸ h

theorem cFinal_step : CStep envA "gpt2" cW5 cFinal := by
  have h : CStep envA "gpt2" cW5
      { cW5 with threads := updThreads cW5.threads 0 (TSt.done (.ok ⟨0⟩)),
                 ENCODINGS := dictInsert cW5.ENCODINGS "gpt2" ⟨0⟩,
                 lock := none } :=
    CStep.publish _ 0 ⟨0⟩ rfl rfl
  have he : ({ cW5 with
      threads := updThreads cW5.threads 0 (TSt.done (.ok ⟨0⟩)),
      ENCODINGS := dictInsert cW5.ENCODINGS "gpt2" ⟨0⟩,
      lock := none } : CConfig 1) = cFinal := by
    dsimp only [cW5, cFinal]
    congr 1
    funext j
    rw [fin1_eq_zero j, updThreads_self]
  exact he ▸ h

theorem cFinal_reachable : CReachable envA "gpt2" cFinal := by
  show Relation.ReflTransGen (CStep envA "gpt2") (initConfig 1) cFinal
  exact .tail (.tail (.tail (.tail (.tail (.single cW1_step) cW2_step)
    cW3_step) cW4_step) cW5_step) cFinal_step

theorem get_encoding_concurrent_at_most_once_witness :
    cFinal.factoryCalls.count "gpt2" = 1 ∧
    ∃ e, ∀ i : Fin 1, cFinal.threads i = TSt.done (.ok e) :=
  get_encoding_concurrent_at_most_once envA "gpt2" tA
    ["tiktoken_ext.openai_public"] ⟨0⟩ Nat.one_pos rfl rfl cFinal
    cFinal_reachable (fun _ => ⟨.ok ⟨0⟩, rfl⟩)
